import Mathlib

/-!
# Verification of the SPHiros equation-of-state closure layer

Shallow embedding of the EOS closure-model layer of the `sphiros`
repository (`src/eos/eos_linear_gas.hpp`, `src/eos/eos_stiffened_gas.hpp`,
`src/eos/eos_crtp.hpp`, and the dispatch loop of `src/sphiros.cpp`).

Modelling choices:
* A `Kokkos::View<double*>` is modelled as a `List ℚ`; `double` arithmetic
  is modelled by exact rational arithmetic (the spec's tolerance ~1e-8 is
  replaced by exact equality, which is stronger).
* `Kokkos::parallel_for(name, N, body)` is modelled as a sequential fold of
  the body over the index list `[0, ..., N-1]`; the kernels are
  index-disjoint, so the sequential fold has the same outcome as any
  parallel schedule.
* Writing `p(i) = v` is modelled as `List.set i v` (a no-op out of bounds,
  matching the fact that the views share the length `N` in every scenario
  of the spec); reading `rho(i)` is modelled as `List.getD i 0`.
* Division by zero in `ℚ` yields `0` where IEEE doubles would give
  inf/NaN; every claim that touches the quotient assumes `ρ[i] > 0`, so
  the divergence is never exercised.
-/

namespace Sphiros

/-- Model of `Kokkos::parallel_for(label, N, body)` from Kokkos, as used by
the EOS kernels: execute `body` for every index in `[0, N)`.  The kernels
are index-disjoint so iteration order is irrelevant; we fix the sequential
order `0, 1, ..., N-1`. -/
def Kokkos.parallelFor {α : Type} (N : ℕ) (body : ℕ → α → α) (st : α) : α :=
  (List.range N).foldl (fun s i => body i s) st

/-- `EOSLinearGas` from `src/eos/eos_linear_gas.hpp`: id, specific heat
ratio `gamma`, minimum cutoff pressure `pcutoff`. -/
structure EOSLinearGas where
  m_id : Int
  m_gamma : ℚ
  m_pcutoff : ℚ
deriving DecidableEq

/-- `EOSStiffenedGas` from `src/eos/eos_stiffened_gas.hpp`: id, `gamma`,
`pcutoff`, and the stiffening pressure `pinf` (default `0.0`). -/
structure EOSStiffenedGas where
  m_id : Int
  m_gamma : ℚ
  m_pcutoff : ℚ
  m_pinf : ℚ
deriving DecidableEq

/-- `EOSLinearGas::PressureSoSImpl` (`eos_linear_gas.hpp`, lines 48–58):
for each `i < rho.extent(0)`,
`p(i) = max((m_gamma - 1.0) * rho(i) * eint(i), m_pcutoff)` and then
`sos(i) = m_gamma * p(i) / rho(i)` (reading the freshly written `p(i)`).
The mutated `(p, sos)` pair is returned; `rho` and `eint` are read-only. -/
def EOSLinearGas.PressureSoSImpl (eos : EOSLinearGas)
    (rho eint p sos : List ℚ) : List ℚ × List ℚ :=
  let N := rho.length
  Kokkos.parallelFor N
    (fun i st =>
      let p1 := st.1.set i
        (max ((eos.m_gamma - 1) * rho.getD i 0 * eint.getD i 0) eos.m_pcutoff)
      (p1, st.2.set i (eos.m_gamma * p1.getD i 0 / rho.getD i 0)))
    (p, sos)

/-- `EOSStiffenedGas::PressureSoSImpl` (`eos_stiffened_gas.hpp`, lines
50–61): for each `i < rho.extent(0)`,
`p(i) = max((m_gamma - 1.0) * rho(i) * eint(i) - m_gamma * m_pinf, m_pcutoff)`
and then `sos(i) = m_gamma * (p(i) + m_pinf) / rho(i)`. -/
def EOSStiffenedGas.PressureSoSImpl (eos : EOSStiffenedGas)
    (rho eint p sos : List ℚ) : List ℚ × List ℚ :=
  let N := rho.length
  Kokkos.parallelFor N
    (fun i st =>
      let p1 := st.1.set i
        (max ((eos.m_gamma - 1) * rho.getD i 0 * eint.getD i 0
                - eos.m_gamma * eos.m_pinf) eos.m_pcutoff)
      (p1, st.2.set i (eos.m_gamma * (p1.getD i 0 + eos.m_pinf) / rho.getD i 0)))
    (p, sos)

/-- `EOSCRTP<EOSLinearGas>::PressureSoS` (`eos_crtp.hpp`, lines 58–63),
instantiated at the linear-gas derived class: calls `PressureSoSImpl` on
four default-constructed (hence zero-length) views. -/
def EOSLinearGas.PressureSoS (eos : EOSLinearGas) : List ℚ × List ℚ :=
  eos.PressureSoSImpl [] [] [] []

/-- `EOSCRTP<EOSStiffenedGas>::PressureSoS` (`eos_crtp.hpp`, lines 58–63),
instantiated at the stiffened-gas derived class. -/
def EOSStiffenedGas.PressureSoS (eos : EOSStiffenedGas) : List ℚ × List ℚ :=
  eos.PressureSoSImpl [] [] [] []

/-- The `std::variant<EOSLinearGas, EOSStiffenedGas>` used by
`src/sphiros.cpp`. -/
inductive EOSVariant where
  | lin (eos : EOSLinearGas)
  | stiff (eos : EOSStiffenedGas)
deriving DecidableEq

/-- The `std::visit` call of `src/sphiros.cpp` (lines 97–116): invoke the
held alternative's `PressureSoSImpl` on the shared arrays. -/
def EOSVariant.pressureSoSImpl :
    EOSVariant → List ℚ → List ℚ → List ℚ → List ℚ → List ℚ × List ℚ
  | .lin e, rho, eint, p, sos => e.PressureSoSImpl rho eint p sos
  | .stiff e, rho, eint, p, sos => e.PressureSoSImpl rho eint p sos

/-- The dispatch loop of `main` (`src/sphiros.cpp`, lines 97–116): evaluate
every model of `eos_vector` in order against the same shared
`(rho, eint, p, sos)` arrays, overwriting `p` and `sos` in place. -/
def dispatch (ms : List EOSVariant) (rho eint p sos : List ℚ) :
    List ℚ × List ℚ :=
  ms.foldl (fun st m => m.pressureSoSImpl rho eint st.1 st.2) (p, sos)

/-! ## Generic shape of the two kernels

Both kernels are instances of one step shape: at index `i`, write a value
`fp i` (depending only on `rho.getD i 0`, `eint.getD i 0` and the model
parameters) into `p`, re-read it, and write `gs i (p value)` into `sos`.
The lemmas below characterise a `parallelFor` of this shape. -/

/-- One iteration of either EOS kernel, abstracted over the pressure
formula `fp` and the sound-speed formula `gs`. -/
def eosStep (fp : ℕ → ℚ) (gs : ℕ → ℚ → ℚ) (i : ℕ) (st : List ℚ × List ℚ) :
    List ℚ × List ℚ :=
  let p1 := st.1.set i (fp i)
  (p1, st.2.set i (gs i (p1.getD i 0)))

theorem EOSLinearGas.linear_impl_eq_eosStep (eos : EOSLinearGas)
    (rho eint p sos : List ℚ) :
    eos.PressureSoSImpl rho eint p sos =
      Kokkos.parallelFor rho.length
        (eosStep
          (fun i => max ((eos.m_gamma - 1) * rho.getD i 0 * eint.getD i 0)
            eos.m_pcutoff)
          (fun i v => eos.m_gamma * v / rho.getD i 0))
        (p, sos) := rfl

theorem EOSStiffenedGas.stiffened_impl_eq_eosStep (eos : EOSStiffenedGas)
    (rho eint p sos : List ℚ) :
    eos.PressureSoSImpl rho eint p sos =
      Kokkos.parallelFor rho.length
        (eosStep
          (fun i => max ((eos.m_gamma - 1) * rho.getD i 0 * eint.getD i 0
              - eos.m_gamma * eos.m_pinf) eos.m_pcutoff)
          (fun i v => eos.m_gamma * (v + eos.m_pinf) / rho.getD i 0))
        (p, sos) := rfl

theorem Kokkos.parallelFor_zero {α : Type} (body : ℕ → α → α) (st : α) :
    Kokkos.parallelFor 0 body st = st := rfl

theorem Kokkos.parallelFor_succ {α : Type} (N : ℕ) (body : ℕ → α → α) (st : α) :
    Kokkos.parallelFor (N + 1) body st = body N (Kokkos.parallelFor N body st) := by
  unfold Kokkos.parallelFor
  rw [List.range_succ, List.foldl_append]
  rfl

/-- The kernels only ever `set` into the state, so they preserve the
lengths of both output views. -/
theorem parallelFor_eosStep_length (fp : ℕ → ℚ) (gs : ℕ → ℚ → ℚ) (N : ℕ)
    (p sos : List ℚ) :
    (Kokkos.parallelFor N (eosStep fp gs) (p, sos)).1.length = p.length ∧
    (Kokkos.parallelFor N (eosStep fp gs) (p, sos)).2.length = sos.length := by
  induction N with
  | zero => exact ⟨rfl, rfl⟩
  | succ n ih =>
    rw [Kokkos.parallelFor_succ]
    obtain ⟨ih1, ih2⟩ := ih
    simp [eosStep, ih1, ih2]

/-- Frame property: indices at or beyond the iteration range `[0, N)` are
never written. -/
theorem parallelFor_eosStep_getD_frame (fp : ℕ → ℚ) (gs : ℕ → ℚ → ℚ) (N : ℕ)
    (p sos : List ℚ) (j : ℕ) (d : ℚ) (hj : N ≤ j) :
    (Kokkos.parallelFor N (eosStep fp gs) (p, sos)).1.getD j d = p.getD j d ∧
    (Kokkos.parallelFor N (eosStep fp gs) (p, sos)).2.getD j d = sos.getD j d := by
  induction N with
  | zero => exact ⟨rfl, rfl⟩
  | succ n ih =>
    have hnj : n ≠ j := by omega
    obtain ⟨ih1, ih2⟩ := ih (by omega)
    rw [Kokkos.parallelFor_succ]
    constructor
    · simpa [eosStep, List.getD_eq_getD_get?, List.getElem?_set_ne hnj]
        using ih1
    · simpa [eosStep, List.getD_eq_getD_get?, List.getElem?_set_ne hnj]
        using ih2

/-- Main characterisation: after the pass, slot `j < N` of the pressure
view holds `fp j` and slot `j` of the sound-speed view holds `gs j (fp j)`
— in particular the sound speed is computed from the already-clamped
pressure, and neither value depends on the previous contents of `p` or
`sos`. -/
theorem parallelFor_eosStep_getD (fp : ℕ → ℚ) (gs : ℕ → ℚ → ℚ) (N : ℕ)
    (p sos : List ℚ) (j : ℕ) (d : ℚ) (hj : j < N) (hp : j < p.length)
    (hs : j < sos.length) :
    (Kokkos.parallelFor N (eosStep fp gs) (p, sos)).1.getD j d = fp j ∧
    (Kokkos.parallelFor N (eosStep fp gs) (p, sos)).2.getD j d = gs j (fp j) := by
  induction N with
  | zero => omega
  | succ n ih =>
    rw [Kokkos.parallelFor_succ]
    rcases Nat.lt_or_ge j n with hlt | hge
    · have hnj : n ≠ j := by omega
      obtain ⟨ih1, ih2⟩ := ih hlt
      constructor
      · simpa [eosStep, List.getD_eq_getD_get?, List.getElem?_set_ne hnj]
          using ih1
      · simpa [eosStep, List.getD_eq_getD_get?, List.getElem?_set_ne hnj]
          using ih2
    · have hjn : j = n := by omega
      subst hjn
      obtain ⟨hl1, hl2⟩ := parallelFor_eosStep_length fp gs j p sos
      have hp1 : j < (Kokkos.parallelFor j (eosStep fp gs) (p, sos)).1.length := by
        rw [hl1]; exact hp
      have hs1 : j < (Kokkos.parallelFor j (eosStep fp gs) (p, sos)).2.length := by
        rw [hl2]; exact hs
      constructor
      · simp [eosStep, List.getD_eq_getD_get?, List.getElem?_set_eq_of_lt _ hp1]
      · simp [eosStep, List.getD_eq_getD_get?, List.getElem?_set_eq_of_lt _ hp1,
          List.getElem?_set_eq_of_lt _ hs1]

/-- The outcome of a kernel pass does not depend on the previous contents
of the output views, only on their lengths (here: both full length `N`). -/
theorem parallelFor_eosStep_indep (fp : ℕ → ℚ) (gs : ℕ → ℚ → ℚ) (N : ℕ)
    (p p' sos sos' : List ℚ) (hp : p.length = N) (hp' : p'.length = N)
    (hs : sos.length = N) (hs' : sos'.length = N) :
    Kokkos.parallelFor N (eosStep fp gs) (p, sos) =
    Kokkos.parallelFor N (eosStep fp gs) (p', sos') := by
  obtain ⟨hl1, hl2⟩ := parallelFor_eosStep_length fp gs N p sos
  obtain ⟨hl1', hl2'⟩ := parallelFor_eosStep_length fp gs N p' sos'
  have e1 : (Kokkos.parallelFor N (eosStep fp gs) (p, sos)).1 =
      (Kokkos.parallelFor N (eosStep fp gs) (p', sos')).1 := by
    apply List.ext_get (by rw [hl1, hl1', hp, hp'])
    intro m h1 h2
    have hm : m < N := by rw [hl1, hp] at h1; exact h1
    rw [List.get_eq_getElem, List.get_eq_getElem,
      ← List.getD_eq_getElem _ 0 h1, ← List.getD_eq_getElem _ 0 h2,
      (parallelFor_eosStep_getD fp gs N p sos m 0 hm (by omega) (by omega)).1,
      (parallelFor_eosStep_getD fp gs N p' sos' m 0 hm (by omega) (by omega)).1]
  have e2 : (Kokkos.parallelFor N (eosStep fp gs) (p, sos)).2 =
      (Kokkos.parallelFor N (eosStep fp gs) (p', sos')).2 := by
    apply List.ext_get (by rw [hl2, hl2', hs, hs'])
    intro m h1 h2
    have hm : m < N := by rw [hl2, hs] at h1; exact h1
    rw [List.get_eq_getElem, List.get_eq_getElem,
      ← List.getD_eq_getElem _ 0 h1, ← List.getD_eq_getElem _ 0 h2,
      (parallelFor_eosStep_getD fp gs N p sos m 0 hm (by omega) (by omega)).2,
      (parallelFor_eosStep_getD fp gs N p' sos' m 0 hm (by omega) (by omega)).2]
  exact Prod.ext e1 e2

/-- Elementwise characterisation of the linear-gas kernel. -/
theorem EOSLinearGas.linear_getD_impl (eos : EOSLinearGas) (rho eint p sos : List ℚ)
    (i : ℕ) (d : ℚ) (hi : i < rho.length) (hp : i < p.length)
    (hs : i < sos.length) :
    (eos.PressureSoSImpl rho eint p sos).1.getD i d =
      max ((eos.m_gamma - 1) * rho.getD i 0 * eint.getD i 0) eos.m_pcutoff ∧
    (eos.PressureSoSImpl rho eint p sos).2.getD i d =
      eos.m_gamma *
        max ((eos.m_gamma - 1) * rho.getD i 0 * eint.getD i 0) eos.m_pcutoff /
        rho.getD i 0 := by
  rw [EOSLinearGas.linear_impl_eq_eosStep]
  exact parallelFor_eosStep_getD _ _ _ _ _ _ _ hi hp hs

/-- Elementwise characterisation of the stiffened-gas kernel. -/
theorem EOSStiffenedGas.stiffened_getD_impl (eos : EOSStiffenedGas)
    (rho eint p sos : List ℚ) (i : ℕ) (d : ℚ) (hi : i < rho.length)
    (hp : i < p.length) (hs : i < sos.length) :
    (eos.PressureSoSImpl rho eint p sos).1.getD i d =
      max ((eos.m_gamma - 1) * rho.getD i 0 * eint.getD i 0
        - eos.m_gamma * eos.m_pinf) eos.m_pcutoff ∧
    (eos.PressureSoSImpl rho eint p sos).2.getD i d =
      eos.m_gamma *
        (max ((eos.m_gamma - 1) * rho.getD i 0 * eint.getD i 0
          - eos.m_gamma * eos.m_pinf) eos.m_pcutoff + eos.m_pinf) /
        rho.getD i 0 := by
  rw [EOSStiffenedGas.stiffened_impl_eq_eosStep]
  exact parallelFor_eosStep_getD _ _ _ _ _ _ _ hi hp hs

/-- Either variant's kernel preserves the lengths of the output views. -/
theorem EOSVariant.impl_length (m : EOSVariant) (rho eint p sos : List ℚ) :
    (m.pressureSoSImpl rho eint p sos).1.length = p.length ∧
    (m.pressureSoSImpl rho eint p sos).2.length = sos.length := by
  cases m with
  | lin e =>
    rw [EOSVariant.pressureSoSImpl, EOSLinearGas.linear_impl_eq_eosStep]
    exact parallelFor_eosStep_length _ _ _ _ _
  | stiff e =>
    rw [EOSVariant.pressureSoSImpl, EOSStiffenedGas.stiffened_impl_eq_eosStep]
    exact parallelFor_eosStep_length _ _ _ _ _

/-- When the output views span the full particle range, a kernel pass
fully overwrites them: the result does not depend on their previous
contents. -/
theorem EOSVariant.impl_indep (m : EOSVariant) (rho eint p p' sos sos' : List ℚ)
    (hp : p.length = rho.length) (hp' : p'.length = rho.length)
    (hs : sos.length = rho.length) (hs' : sos'.length = rho.length) :
    m.pressureSoSImpl rho eint p sos = m.pressureSoSImpl rho eint p' sos' := by
  cases m with
  | lin e =>
    rw [EOSVariant.pressureSoSImpl, EOSVariant.pressureSoSImpl,
      EOSLinearGas.linear_impl_eq_eosStep, EOSLinearGas.linear_impl_eq_eosStep]
    exact parallelFor_eosStep_indep _ _ _ _ _ _ _ hp hp' hs hs'
  | stiff e =>
    rw [EOSVariant.pressureSoSImpl, EOSVariant.pressureSoSImpl,
      EOSStiffenedGas.stiffened_impl_eq_eosStep, EOSStiffenedGas.stiffened_impl_eq_eosStep]
    exact parallelFor_eosStep_indep _ _ _ _ _ _ _ hp hp' hs hs'

/-- Dispatching any sequence of models followed by a final model `m` gives
the same result as running `m` alone, provided the output views span the
full particle range. -/
theorem dispatch_append_single (m : EOSVariant) (ms : List EOSVariant)
    (rho eint : List ℚ) :
    ∀ p sos : List ℚ, p.length = rho.length → sos.length = rho.length →
      dispatch (ms ++ [m]) rho eint p sos = m.pressureSoSImpl rho eint p sos := by
  induction ms with
  | nil => intro p sos _ _; rfl
  | cons m0 ms ih =>
    intro p sos hp hs
    obtain ⟨hl1, hl2⟩ := m0.impl_length rho eint p sos
    have step : dispatch ((m0 :: ms) ++ [m]) rho eint p sos =
        dispatch (ms ++ [m]) rho eint
          (m0.pressureSoSImpl rho eint p sos).1
          (m0.pressureSoSImpl rho eint p sos).2 := rfl
    rw [step, ih _ _ (by rw [hl1, hp]) (by rw [hl2, hs])]
    exact EOSVariant.impl_indep m rho eint _ p _ sos
      (by rw [hl1, hp]) hp (by rw [hl2, hs]) hs

/-! ## The claims -/

/-- C1: for every index `i` with `rho[i] > 0` and every `gamma > 1`,
`EOSLinearGas::PressureSoSImpl` sets
`p[i] = max((gamma-1)*rho[i]*eint[i], pcutoff)` and
`sos[i] = gamma*p[i]/rho[i]`, where the `p[i]` in the sound-speed formula
is the already-clamped pressure. -/
theorem claim_C1_linear_pressure_sos (eos : EOSLinearGas)
    (rho eint p sos : List ℚ) (i : ℕ) (hρ : 0 < rho.getD i 0)
    (hγ : 1 < eos.m_gamma) (hi : i < rho.length)
    (hp : p.length = rho.length) (hs : sos.length = rho.length) :
    (eos.PressureSoSImpl rho eint p sos).1.getD i 0 =
      max ((eos.m_gamma - 1) * rho.getD i 0 * eint.getD i 0) eos.m_pcutoff ∧
    (eos.PressureSoSImpl rho eint p sos).2.getD i 0 =
      eos.m_gamma * (eos.PressureSoSImpl rho eint p sos).1.getD i 0 /
        rho.getD i 0 := by
  obtain ⟨h1, h2⟩ := eos.linear_getD_impl rho eint p sos i 0 hi (by omega) (by omega)
  exact ⟨h1, by rw [h1, h2]⟩

/-- Witness for C1 at `rho = [1]`, `eint = [1]`, `gamma = 7/5`,
`pcutoff = 1/1000000` (spec Scenario 1, where `p = 0.4`). -/
theorem claim_C1_witness :
    ((⟨0, 7/5, 1/1000000⟩ : EOSLinearGas).PressureSoSImpl [1] [1] [0] [0]).1.getD 0 0 =
      max (((7:ℚ)/5 - 1) * List.getD [1] 0 0 * List.getD [1] 0 0) (1/1000000) ∧
    ((⟨0, 7/5, 1/1000000⟩ : EOSLinearGas).PressureSoSImpl [1] [1] [0] [0]).2.getD 0 0 =
      (7:ℚ)/5 *
        ((⟨0, 7/5, 1/1000000⟩ : EOSLinearGas).PressureSoSImpl [1] [1] [0] [0]).1.getD 0 0 /
        List.getD [1] 0 0 :=
  claim_C1_linear_pressure_sos ⟨0, 7/5, 1/1000000⟩ [1] [1] [0] [0] 0
    (by norm_num) (by norm_num) (by norm_num) rfl rfl

/-- C2: for every index `i` with `rho[i] > 0`,
`EOSStiffenedGas::PressureSoSImpl` sets
`p[i] = max((gamma-1)*rho[i]*eint[i] - gamma*pinf, pcutoff)` and
`sos[i] = gamma*(p[i]+pinf)/rho[i]`, with `p[i]` already clamped. -/
theorem claim_C2_stiffened_pressure_sos (eos : EOSStiffenedGas)
    (rho eint p sos : List ℚ) (i : ℕ) (hρ : 0 < rho.getD i 0)
    (hi : i < rho.length) (hp : p.length = rho.length)
    (hs : sos.length = rho.length) :
    (eos.PressureSoSImpl rho eint p sos).1.getD i 0 =
      max ((eos.m_gamma - 1) * rho.getD i 0 * eint.getD i 0
        - eos.m_gamma * eos.m_pinf) eos.m_pcutoff ∧
    (eos.PressureSoSImpl rho eint p sos).2.getD i 0 =
      eos.m_gamma *
        ((eos.PressureSoSImpl rho eint p sos).1.getD i 0 + eos.m_pinf) /
        rho.getD i 0 := by
  obtain ⟨h1, h2⟩ := eos.stiffened_getD_impl rho eint p sos i 0 hi (by omega) (by omega)
  exact ⟨h1, by rw [h1, h2]⟩

/-- Witness for C2 at `rho = [1]`, `eint = [2]`, `gamma = 7/5`,
`pcutoff = 1/1000000`, `pinf = 1/10` (spec Scenario 2). -/
theorem claim_C2_witness :
    ((⟨0, 7/5, 1/1000000, 1/10⟩ : EOSStiffenedGas).PressureSoSImpl [1] [2] [0] [0]).1.getD 0 0 =
      max (((7:ℚ)/5 - 1) * List.getD [1] 0 0 * List.getD [2] 0 0 - 7/5 * (1/10))
        (1/1000000) ∧
    ((⟨0, 7/5, 1/1000000, 1/10⟩ : EOSStiffenedGas).PressureSoSImpl [1] [2] [0] [0]).2.getD 0 0 =
      (7:ℚ)/5 *
        (((⟨0, 7/5, 1/1000000, 1/10⟩ : EOSStiffenedGas).PressureSoSImpl [1] [2] [0] [0]).1.getD 0 0
          + 1/10) /
        List.getD [1] 0 0 :=
  claim_C2_stiffened_pressure_sos ⟨0, 7/5, 1/1000000, 1/10⟩ [1] [2] [0] [0] 0
    (by norm_num) (by norm_num) rfl rfl

/-- C3: dispatching a sequence of two or more models against the same
shared arrays leaves `p` and `sos` holding exactly what the last model
alone would have produced; no earlier model's results survive. -/
theorem claim_C3_last_write_wins (ms : List EOSVariant) (m : EOSVariant)
    (rho eint p sos : List ℚ) (hms : ms ≠ [])
    (hp : p.length = rho.length) (hs : sos.length = rho.length) :
    dispatch (ms ++ [m]) rho eint p sos = m.pressureSoSImpl rho eint p sos :=
  dispatch_append_single m ms rho eint p sos hp hs

/-- Witness for C3: a linear-gas model followed by a stiffened-gas model
over one particle; the result is the stiffened model's alone. -/
theorem claim_C3_witness :
    dispatch ([EOSVariant.lin ⟨0, 7/5, 1/1000000⟩] ++
        [EOSVariant.stiff ⟨1, 7/5, 1/1000000, 1/10⟩]) [1] [1] [0] [0] =
      (EOSVariant.stiff ⟨1, 7/5, 1/1000000, 1/10⟩).pressureSoSImpl [1] [1] [0] [0] :=
  claim_C3_last_write_wins [EOSVariant.lin ⟨0, 7/5, 1/1000000⟩]
    (EOSVariant.stiff ⟨1, 7/5, 1/1000000, 1/10⟩) [1] [1] [0] [0]
    (by simp) rfl rfl

/-- C4: for both variants, whenever the unclamped pressure expression is
strictly below `pcutoff`, the computed `p[i]` equals `pcutoff` exactly. -/
theorem claim_C4_pcutoff_floor (eosL : EOSLinearGas) (eosS : EOSStiffenedGas)
    (rho eint p sos : List ℚ) (i : ℕ) (hi : i < rho.length)
    (hp : p.length = rho.length) (hs : sos.length = rho.length) :
    ((eosL.m_gamma - 1) * rho.getD i 0 * eint.getD i 0 < eosL.m_pcutoff →
      (eosL.PressureSoSImpl rho eint p sos).1.getD i 0 = eosL.m_pcutoff) ∧
    ((eosS.m_gamma - 1) * rho.getD i 0 * eint.getD i 0
        - eosS.m_gamma * eosS.m_pinf < eosS.m_pcutoff →
      (eosS.PressureSoSImpl rho eint p sos).1.getD i 0 = eosS.m_pcutoff) := by
  constructor
  · intro hlt
    rw [(eosL.linear_getD_impl rho eint p sos i 0 hi (by omega) (by omega)).1]
    exact max_eq_right hlt.le
  · intro hlt
    rw [(eosS.stiffened_getD_impl rho eint p sos i 0 hi (by omega) (by omega)).1]
    exact max_eq_right hlt.le

/-- Witness for C4 at `eint = [-1]`, where both unclamped expressions are
negative and thus below `pcutoff = 1/1000000`. -/
theorem claim_C4_witness :
    ((⟨0, 7/5, 1/1000000⟩ : EOSLinearGas).PressureSoSImpl [1] [-1] [0] [0]).1.getD 0 0 =
      (1:ℚ)/1000000 ∧
    ((⟨1, 7/5, 1/1000000, 1/10⟩ : EOSStiffenedGas).PressureSoSImpl [1] [-1] [0] [0]).1.getD 0 0 =
      (1:ℚ)/1000000 :=
  ⟨(claim_C4_pcutoff_floor ⟨0, 7/5, 1/1000000⟩ ⟨1, 7/5, 1/1000000, 1/10⟩
      [1] [-1] [0] [0] 0 (by norm_num) rfl rfl).1 (by norm_num),
   (claim_C4_pcutoff_floor ⟨0, 7/5, 1/1000000⟩ ⟨1, 7/5, 1/1000000, 1/10⟩
      [1] [-1] [0] [0] 0 (by norm_num) rfl rfl).2 (by norm_num)⟩

/-- C5: for both variants, with `gamma > 1` and `rho[i] > 0` fixed, the
computed pressure is monotonically non-decreasing in the internal
energy. -/
theorem claim_C5_pressure_monotone (eosL : EOSLinearGas)
    (eosS : EOSStiffenedGas) (rho e1 e2 p sos : List ℚ) (i : ℕ)
    (hi : i < rho.length) (hp : p.length = rho.length)
    (hs : sos.length = rho.length) (hρ : 0 < rho.getD i 0)
    (hγL : 1 < eosL.m_gamma) (hγS : 1 < eosS.m_gamma)
    (he : e1.getD i 0 ≤ e2.getD i 0) :
    (eosL.PressureSoSImpl rho e1 p sos).1.getD i 0 ≤
      (eosL.PressureSoSImpl rho e2 p sos).1.getD i 0 ∧
    (eosS.PressureSoSImpl rho e1 p sos).1.getD i 0 ≤
      (eosS.PressureSoSImpl rho e2 p sos).1.getD i 0 := by
  have hcoefL : 0 ≤ (eosL.m_gamma - 1) * rho.getD i 0 :=
    mul_nonneg (by linarith) hρ.le
  have hcoefS : 0 ≤ (eosS.m_gamma - 1) * rho.getD i 0 :=
    mul_nonneg (by linarith) hρ.le
  constructor
  · rw [(eosL.linear_getD_impl rho e1 p sos i 0 hi (by omega) (by omega)).1,
      (eosL.linear_getD_impl rho e2 p sos i 0 hi (by omega) (by omega)).1]
    exact max_le_max (mul_le_mul_of_nonneg_left he hcoefL) le_rfl
  · rw [(eosS.stiffened_getD_impl rho e1 p sos i 0 hi (by omega) (by omega)).1,
      (eosS.stiffened_getD_impl rho e2 p sos i 0 hi (by omega) (by omega)).1]
    exact max_le_max
      (sub_le_sub_right (mul_le_mul_of_nonneg_left he hcoefS) _) le_rfl

/-- Witness for C5 at `e1 = [1] ≤ e2 = [2]`. -/
theorem claim_C5_witness :
    ((⟨0, 7/5, 1/1000000⟩ : EOSLinearGas).PressureSoSImpl [1] [1] [0] [0]).1.getD 0 0 ≤
      ((⟨0, 7/5, 1/1000000⟩ : EOSLinearGas).PressureSoSImpl [1] [2] [0] [0]).1.getD 0 0 ∧
    ((⟨1, 7/5, 1/1000000, 1/10⟩ : EOSStiffenedGas).PressureSoSImpl [1] [1] [0] [0]).1.getD 0 0 ≤
      ((⟨1, 7/5, 1/1000000, 1/10⟩ : EOSStiffenedGas).PressureSoSImpl [1] [2] [0] [0]).1.getD 0 0 :=
  claim_C5_pressure_monotone ⟨0, 7/5, 1/1000000⟩ ⟨1, 7/5, 1/1000000, 1/10⟩
    [1] [1] [2] [0] [0] 0 (by norm_num) rfl rfl (by norm_num) (by norm_num)
    (by norm_num) (by norm_num)

/-- C6: `EOSStiffenedGas` with `pinf = 0` produces, index by index, exactly
the same pressure array as `EOSLinearGas` with the same
`(gamma, pcutoff)`, on every input. -/
theorem claim_C6_stiffened_pinf_zero_refines_linear (idS idL : Int)
    (γ pc : ℚ) (rho eint p sos : List ℚ) :
    ((⟨idS, γ, pc, 0⟩ : EOSStiffenedGas).PressureSoSImpl rho eint p sos).1 =
      ((⟨idL, γ, pc⟩ : EOSLinearGas).PressureSoSImpl rho eint p sos).1 := by
  have h : (⟨idS, γ, pc, 0⟩ : EOSStiffenedGas).PressureSoSImpl rho eint p sos =
      (⟨idL, γ, pc⟩ : EOSLinearGas).PressureSoSImpl rho eint p sos := by
    rw [EOSStiffenedGas.stiffened_impl_eq_eosStep, EOSLinearGas.linear_impl_eq_eosStep]
    simp
  rw [h]

/-- C7: on `rho = [1]`, `eint = [2]` with `gamma = 1.4`,
`pcutoff = 1e-6`, `pinf = 0.1`, the stiffened-gas kernel produces exactly
`p = 0.66` and `sos = 1.064` (exact rational equality, which is within the
spec's ~1e-8 tolerance). -/
theorem claim_C7_scenario2 :
    (⟨0, 1.4, 1e-6, 0.1⟩ : EOSStiffenedGas).PressureSoSImpl [1] [2] [0] [0] =
      ([0.66], [1.064]) := by
  norm_num [EOSStiffenedGas.PressureSoSImpl, Kokkos.parallelFor,
    List.range_succ, max_def]

/-- C8: both kernels are pure and elementwise. Determinism is immediate in
this embedding (the kernels are functions, and `rho`, `eint` and the model
parameters are not part of the mutable state, matching the `const`
qualifiers in the source). The non-trivial content proved here: the output
lengths are preserved, every slot at or beyond the iteration range keeps
its previous value (each iteration `i` writes only `p[i]` and `sos[i]`),
and slot `i` of each output is an explicit function of `rho[i]`, `eint[i]`
and the model parameters alone. -/
theorem claim_C8_pure_elementwise (eosL : EOSLinearGas)
    (eosS : EOSStiffenedGas) (rho eint p sos : List ℚ) :
    ((eosL.PressureSoSImpl rho eint p sos).1.length = p.length ∧
     (eosL.PressureSoSImpl rho eint p sos).2.length = sos.length ∧
     (eosS.PressureSoSImpl rho eint p sos).1.length = p.length ∧
     (eosS.PressureSoSImpl rho eint p sos).2.length = sos.length) ∧
    (∀ j, rho.length ≤ j →
      (eosL.PressureSoSImpl rho eint p sos).1.getD j 0 = p.getD j 0 ∧
      (eosL.PressureSoSImpl rho eint p sos).2.getD j 0 = sos.getD j 0 ∧
      (eosS.PressureSoSImpl rho eint p sos).1.getD j 0 = p.getD j 0 ∧
      (eosS.PressureSoSImpl rho eint p sos).2.getD j 0 = sos.getD j 0) ∧
    (∀ i, i < rho.length → i < p.length → i < sos.length →
      (eosL.PressureSoSImpl rho eint p sos).1.getD i 0 =
        max ((eosL.m_gamma - 1) * rho.getD i 0 * eint.getD i 0)
          eosL.m_pcutoff ∧
      (eosL.PressureSoSImpl rho eint p sos).2.getD i 0 =
        eosL.m_gamma *
          max ((eosL.m_gamma - 1) * rho.getD i 0 * eint.getD i 0)
            eosL.m_pcutoff / rho.getD i 0 ∧
      (eosS.PressureSoSImpl rho eint p sos).1.getD i 0 =
        max ((eosS.m_gamma - 1) * rho.getD i 0 * eint.getD i 0
          - eosS.m_gamma * eosS.m_pinf) eosS.m_pcutoff ∧
      (eosS.PressureSoSImpl rho eint p sos).2.getD i 0 =
        eosS.m_gamma *
          (max ((eosS.m_gamma - 1) * rho.getD i 0 * eint.getD i 0
            - eosS.m_gamma * eosS.m_pinf) eosS.m_pcutoff + eosS.m_pinf) /
          rho.getD i 0) := by
  refine ⟨?_, ?_, ?_⟩
  · rw [EOSLinearGas.linear_impl_eq_eosStep, EOSStiffenedGas.stiffened_impl_eq_eosStep]
    obtain ⟨a1, a2⟩ := parallelFor_eosStep_length
      (fun i => max ((eosL.m_gamma - 1) * rho.getD i 0 * eint.getD i 0)
        eosL.m_pcutoff)
      (fun i v => eosL.m_gamma * v / rho.getD i 0) rho.length p sos
    obtain ⟨b1, b2⟩ := parallelFor_eosStep_length
      (fun i => max ((eosS.m_gamma - 1) * rho.getD i 0 * eint.getD i 0
        - eosS.m_gamma * eosS.m_pinf) eosS.m_pcutoff)
      (fun i v => eosS.m_gamma * (v + eosS.m_pinf) / rho.getD i 0)
      rho.length p sos
    exact ⟨a1, a2, b1, b2⟩
  · intro j hj
    rw [EOSLinearGas.linear_impl_eq_eosStep, EOSStiffenedGas.stiffened_impl_eq_eosStep]
    obtain ⟨a1, a2⟩ := parallelFor_eosStep_getD_frame
      (fun i => max ((eosL.m_gamma - 1) * rho.getD i 0 * eint.getD i 0)
        eosL.m_pcutoff)
      (fun i v => eosL.m_gamma * v / rho.getD i 0) rho.length p sos j 0 hj
    obtain ⟨b1, b2⟩ := parallelFor_eosStep_getD_frame
      (fun i => max ((eosS.m_gamma - 1) * rho.getD i 0 * eint.getD i 0
        - eosS.m_gamma * eosS.m_pinf) eosS.m_pcutoff)
      (fun i v => eosS.m_gamma * (v + eosS.m_pinf) / rho.getD i 0)
      rho.length p sos j 0 hj
    exact ⟨a1, a2, b1, b2⟩
  · intro i hi hp hs
    obtain ⟨a1, a2⟩ := eosL.linear_getD_impl rho eint p sos i 0 hi hp hs
    obtain ⟨b1, b2⟩ := eosS.stiffened_getD_impl rho eint p sos i 0 hi hp hs
    exact ⟨a1, a2, b1, b2⟩

/-- Witness for C8: over one particle with two-slot output views, the
out-of-range slots keep their previous values `5` and `7`, and slot `0`
holds the formula values. -/
theorem claim_C8_witness :
    (((⟨0, 7/5, 1/1000000⟩ : EOSLinearGas).PressureSoSImpl [1] [1] [0, 5] [0, 7]).1.getD 1 0 =
        List.getD [0, 5] 1 0 ∧
      ((⟨0, 7/5, 1/1000000⟩ : EOSLinearGas).PressureSoSImpl [1] [1] [0, 5] [0, 7]).2.getD 1 0 =
        List.getD [0, 7] 1 0 ∧
      ((⟨1, 7/5, 1/1000000, 1/10⟩ : EOSStiffenedGas).PressureSoSImpl [1] [1] [0, 5] [0, 7]).1.getD 1 0 =
        List.getD [0, 5] 1 0 ∧
      ((⟨1, 7/5, 1/1000000, 1/10⟩ : EOSStiffenedGas).PressureSoSImpl [1] [1] [0, 5] [0, 7]).2.getD 1 0 =
        List.getD [0, 7] 1 0) ∧
    ((⟨0, 7/5, 1/1000000⟩ : EOSLinearGas).PressureSoSImpl [1] [1] [0, 5] [0, 7]).1.getD 0 0 =
      max (((7:ℚ)/5 - 1) * List.getD [1] 0 0 * List.getD [1] 0 0) (1/1000000) :=
  ⟨(claim_C8_pure_elementwise ⟨0, 7/5, 1/1000000⟩ ⟨1, 7/5, 1/1000000, 1/10⟩
      [1] [1] [0, 5] [0, 7]).2.1 1 (by norm_num),
   ((claim_C8_pure_elementwise ⟨0, 7/5, 1/1000000⟩ ⟨1, 7/5, 1/1000000, 1/10⟩
      [1] [1] [0, 5] [0, 7]).2.2 0 (by norm_num) (by norm_num) (by norm_num)).1⟩

/-- C9: the `m_id` field is stored but never read by either kernel: two
models of the same variant that agree on all parameters except the id
produce identical outputs on every input. -/
theorem claim_C9_id_independent (id1 id2 : Int) (γ pc pinf : ℚ)
    (rho eint p sos : List ℚ) :
    (⟨id1, γ, pc⟩ : EOSLinearGas).PressureSoSImpl rho eint p sos =
      (⟨id2, γ, pc⟩ : EOSLinearGas).PressureSoSImpl rho eint p sos ∧
    (⟨id1, γ, pc, pinf⟩ : EOSStiffenedGas).PressureSoSImpl rho eint p sos =
      (⟨id2, γ, pc, pinf⟩ : EOSStiffenedGas).PressureSoSImpl rho eint p sos :=
  ⟨rfl, rfl⟩

/-- C10: the CRTP entry point `EOSCRTP::PressureSoS` hands the derived
kernel four default-constructed, zero-length views, so for both variants
it performs zero kernel iterations (the pass over empty views is the
identity on any state) and returns empty outputs; no caller-owned array is
even reachable from it. -/
theorem claim_C10_crtp_entry_trivial (eosL : EOSLinearGas)
    (eosS : EOSStiffenedGas) :
    eosL.PressureSoS = (([] : List ℚ), ([] : List ℚ)) ∧
    eosS.PressureSoS = (([] : List ℚ), ([] : List ℚ)) ∧
    (∀ (body : ℕ → List ℚ × List ℚ → List ℚ × List ℚ) (st : List ℚ × List ℚ),
      Kokkos.parallelFor ([] : List ℚ).length body st = st) :=
  ⟨rfl, rfl, fun _ _ => rfl⟩

end Sphiros
